import Mathlib

/-!
Shallow embedding of the chunking-and-reassembly transcription pipeline of
the Whisper-Transcribe extension, together with proofs settling the frozen
claims about it.

The embedding follows the JavaScript source:
* `cleanWhisperOutput`   — src/shared/whisper-utils.js, `cleanWhisperOutput`
* `transcriberRun` etc.  — src/unnamed/part_000, the custom `transcriber`
  (duration threshold, custom chunking, repetition tracking via a JS `Set`)
* `processLongRun` etc.  — src/popup/popup.js `processLongRecording`
  (Web Audio manual chunking loop with per-chunk try/catch)
* `resample`, mono conversion — the audio normalisation helpers
* a small name-resolution model for the `const`-scoping behaviour of
  `processRecording`'s catch block.

Machine numbers are modelled by `Nat`/`Int`/`ℚ` with exact arithmetic;
strings by Lean `String`/`List Char`.  Regular-expression replacements of
the source are implemented as explicit, fuel-based (hence kernel-computable)
scanners whose behaviour matches the JavaScript regexes on the patterns the
source uses.
-/

namespace WhisperTranscribe

/-! ## Character classes (JS regex `\s`, `\w`, punctuation class) -/

/-- JS regex `\s` (WhiteSpace ∪ LineTerminator), as used by `\s`, `trim`. -/
def isJsSpace (c : Char) : Bool :=
  c = ' ' || c = '\t' || c = '\n' || c = '\r' ||
  c.toNat = 11 || c.toNat = 12 ||
  c.toNat = 0xa0 || c.toNat = 0x1680 ||
  (0x2000 ≤ c.toNat && c.toNat ≤ 0x200a) ||
  c.toNat = 0x2028 || c.toNat = 0x2029 || c.toNat = 0x202f ||
  c.toNat = 0x205f || c.toNat = 0x3000 || c.toNat = 0xfeff

/-- JS regex `\w`: ASCII letters, digits, underscore. -/
def isWordChar (c : Char) : Bool :=
  ('a' ≤ c && c ≤ 'z') || ('A' ≤ c && c ≤ 'Z') || ('0' ≤ c && c ≤ '9') || c = '_'

/-- The punctuation class `[.,;:!?]` of the leading/trailing-punctuation
replacements. -/
def isPunctCls (c : Char) : Bool :=
  c = '.' || c = ',' || c = ';' || c = ':' || c = '!' || c = '?'

/-! ## Fuel-based scanners for the individual regex replacements

Each replacement `.replace(re, '')` / `.replace(/\s+/g, ' ')` of
`cleanWhisperOutput` is one scanner.  The fuel argument is always
instantiated with the length of the scanned list, which suffices because
every step consumes at least one character; fuel keeps the definitions
structurally recursive and hence reducible by the kernel. -/

/-- `text.replace(pat, '')` for a literal (global) pattern:
leftmost, non-overlapping occurrences of `pat` are removed. -/
def removeAllFuel (pat : List Char) : Nat → List Char → List Char
  | 0, l => l
  | _ + 1, [] => []
  | fuel + 1, c :: cs =>
    if pat ≠ [] && pat.isPrefixOf (c :: cs) then
      removeAllFuel pat fuel (List.drop (pat.length - 1) cs)
    else
      c :: removeAllFuel pat fuel cs

def removeAll (pat : String) (l : List Char) : List Char :=
  removeAllFuel pat.data l.length l

/-- `text.replace(/\[\w+\]/g, '')`: remove every bracketed run of one or
more word characters. -/
def removeBracketTagsFuel : Nat → List Char → List Char
  | 0, l => l
  | _ + 1, [] => []
  | fuel + 1, c :: cs =>
    if c = '[' then
      let ws := cs.takeWhile isWordChar
      let rest := cs.dropWhile isWordChar
      match rest, ws with
      | ']' :: rest', _ :: _ => removeBracketTagsFuel fuel rest'
      | _, _ => c :: removeBracketTagsFuel fuel cs
    else
      c :: removeBracketTagsFuel fuel cs

def removeBracketTags (l : List Char) : List Char :=
  removeBracketTagsFuel l.length l

/-- Case-insensitive match of the literal `music` at the head of `l`
(the `/i` flag of the music-tag regexes, ASCII case folding). -/
def musicAt (l : List Char) : Bool :=
  match l with
  | m :: u :: s :: i :: c :: _ =>
    (m = 'm' || m = 'M') && (u = 'u' || u = 'U') && (s = 's' || s = 'S') &&
    (i = 'i' || i = 'I') && (c = 'c' || c = 'C')
  | _ => false

/-- `text.replace(/^\s*\[\s*music\s*\]\s*/i, '')`. -/
def stripLeadingMusic (l : List Char) : List Char :=
  match l.dropWhile isJsSpace with
  | '[' :: r1 =>
    let r2 := r1.dropWhile isJsSpace
    if musicAt r2 then
      match (r2.drop 5).dropWhile isJsSpace with
      | ']' :: r5 => r5.dropWhile isJsSpace
      | _ => l
    else l
  | _ => l

/-- Does `l` itself entirely match `\[\s*music\s*\]\s*$` (case-insensitive
on `music`)? -/
def isTrailingMusicTag (l : List Char) : Bool :=
  match l with
  | '[' :: r1 =>
    let r2 := r1.dropWhile isJsSpace
    musicAt r2 &&
      (match (r2.drop 5).dropWhile isJsSpace with
       | ']' :: r4 => r4.all isJsSpace
       | _ => false)
  | _ => false

/-- `text.replace(/\[\s*music\s*\]\s*$/i, '')`: the leftmost suffix
matching the anchored music tag is removed. -/
def stripTrailingMusic : List Char → List Char
  | [] => []
  | c :: cs =>
    if isTrailingMusicTag (c :: cs) then [] else c :: stripTrailingMusic cs

/-- `text.replace(/\s+/g, ' ')`: collapse every whitespace run to one
space. -/
def collapseSpacesFuel : Nat → List Char → List Char
  | 0, l => l
  | _ + 1, [] => []
  | fuel + 1, c :: cs =>
    if isJsSpace c then ' ' :: collapseSpacesFuel fuel (cs.dropWhile isJsSpace)
    else c :: collapseSpacesFuel fuel cs

def collapseSpaces (l : List Char) : List Char :=
  collapseSpacesFuel l.length l

/-- `text.replace(/^\s*\.\s*$/, '')`: a string consisting of one period
amid optional whitespace becomes empty. -/
def removeLonePeriod (l : List Char) : List Char :=
  match l.dropWhile isJsSpace with
  | '.' :: r => if r.all isJsSpace then [] else l
  | _ => l

/-- `text.replace(/^[.,;:!?]+/, '')`. -/
def stripLeadingPunct (l : List Char) : List Char :=
  if isPunctCls (l.headD ' ') then l.dropWhile isPunctCls else l

/-- `text.replace(/[.,;:!?]+$/, '')`: the maximal trailing punctuation run
(the leftmost match that reaches the end) is removed. -/
def stripTrailingPunct (l : List Char) : List Char :=
  (l.reverse.dropWhile isPunctCls).reverse

/-- `text.trim()`. -/
def jsTrim (l : List Char) : List Char :=
  ((l.dropWhile isJsSpace).reverse.dropWhile isJsSpace).reverse

/-! ## `cleanWhisperOutput` (src/shared/whisper-utils.js:282-305) -/

/-- The replacement chain of `cleanWhisperOutput`, in source order. -/
def cleanPipeline (l : List Char) : List Char :=
  jsTrim <|
  stripTrailingPunct <|
  stripLeadingPunct <|
  removeLonePeriod <|
  collapseSpaces <|
  stripTrailingMusic <|
  stripLeadingMusic <|
  removeAll "[BLANK_AUDIO]" <|
  removeBracketTags <|
  removeAll "[END]" <|
  removeAll "[START]" <|
  removeAll "<|translate|>" <|
  removeAll "<|transcribe|>" <|
  removeAll "<|notimestamps|>" <|
  removeAll "<|endoftext|>" <|
  removeAll "<|endoftranscript|>" <|
  removeAll "<|startoftranscript|>" l

/-- `cleanWhisperOutput(text)`; `none` models a null/undefined argument and
the `if (!text) return ''` guard also catches the empty string (both are
falsy). -/
def cleanWhisperOutput : Option String → String
  | none => ""
  | some s => if s = "" then "" else String.mk (cleanPipeline s.data)

/-! ## The custom `transcriber` of src/unnamed/part_000 (lines 260-470)

The inference engine (processor → model.generate → tokenizer.decode) is
opaque; it is modelled by an oracle giving, for each chunk index, either
the raw decoded text or a thrown error, and likewise one result for the
single-window (short-audio) path.  Errors propagate exactly as the
JavaScript exceptions do: the custom chunking loop has no per-chunk
`try/catch`, and the transcriber's own `catch` rethrows. -/

/-- Per-call behaviour of the opaque inference engine. -/
structure EngineIO where
  /-- decoded raw text for chunk `i` of the custom chunking loop,
  or a thrown error -/
  chunkText : Nat → Except Unit String
  /-- decoded raw text of the single-window (short audio) path -/
  singleText : Except Unit String

/-- `chunkOptions.chunk_length_s` resolved in samples:
20 s by default, 25 s when `estimatedDuration > 120`
(`estimatedDuration = audioData.length / 16000`). -/
def adjustedChunkSize (len : Nat) : Nat :=
  if 120 * 16000 < len then 25 * 16000 else 20 * 16000

/-- stride in samples: 5 s by default, 3 s when `estimatedDuration > 120`. -/
def adjustedStrideSize (len : Nat) : Nat :=
  if 120 * 16000 < len then 3 * 16000 else 5 * 16000

/-- `Math.ceil((audioData.length - adjustedChunkSize) /
(adjustedChunkSize - adjustedStrideSize)) + 1`; on the chunked path
`len > adjustedChunkSize`, where natural ceiling division agrees with the
real-valued formula. -/
def numChunks (len : Nat) : Nat :=
  (len - adjustedChunkSize len + (adjustedChunkSize len - adjustedStrideSize len) - 1)
    / (adjustedChunkSize len - adjustedStrideSize len) + 1

/-- `startSample = i * (adjustedChunkSize - adjustedStrideSize)`. -/
def chunkStart (len i : Nat) : Nat :=
  i * (adjustedChunkSize len - adjustedStrideSize len)

/-- The `(startSample, endSample)` pairs of the custom chunking loop,
`endSample = Math.min(startSample + adjustedChunkSize, audioData.length)`. -/
def chunkWindows (len : Nat) : List (Nat × Nat) :=
  (List.range (numChunks len)).map fun i =>
    (chunkStart len i, min (chunkStart len i + adjustedChunkSize len) len)

/-! ### Repetition tracking (`lastWords`, a JS `Set`) -/

/-- `lastWords.add(word)`: a JS `Set` keeps insertion order and ignores an
`add` of an element already present. -/
def setAdd (s : List String) (w : String) : List String :=
  if w ∈ s then s else s ++ [w]

/-- `[...lastWords].filter(w => w === word).length`. -/
def countInSet (s : List String) (w : String) : Nat :=
  (s.filter fun x => x = w).length

/-- One iteration of `for (const word of words)`: state is
`(uniqueWords, lastWords)`.  When `repetitionCount < 3` the word is pushed,
added to the set, and the oldest set entry (`[...lastWords][0]`) is deleted
if the size exceeds 20. -/
def stepWord : List String × List String → String → List String × List String
  | (uniq, last), w =>
    if countInSet last w < 3 then
      let last1 := setAdd last w
      (uniq ++ [w], if 20 < last1.length then last1.drop 1 else last1)
    else
      (uniq, last)

/-- `s.split(/\s+/)` on a list of characters (JS semantics, including the
empty fragments a leading/trailing separator produces); fuelled like the
scanners above. -/
def splitWsFuel : Nat → List Char → List Char → List String
  | 0, l, cur => [String.mk (cur.reverse ++ l)]
  | _ + 1, [], cur => [String.mk cur.reverse]
  | fuel + 1, c :: cs, cur =>
    if isJsSpace c then
      String.mk cur.reverse :: splitWsFuel fuel (cs.dropWhile isJsSpace) []
    else
      splitWsFuel fuel cs (c :: cur)

def splitWs (s : String) : List String := splitWsFuel s.data.length s.data []

/-- `fullTranscription += (fullTranscription && !fullTranscription.endsWith(' ')
? ' ' : '') + dedupedChunk`. -/
def appendChunk (full chunk : String) : String :=
  full ++ (if full ≠ "" && !(full.data.getLast? = some ' ') then " " else "") ++ chunk

/-- The body of the custom chunking loop for one chunk, applied to the
decoded raw text: clean, split, dedup against `lastWords`, join, append. -/
def processChunkText (full : String) (last : List String) (raw : String) :
    String × List String :=
  let cleaned := cleanWhisperOutput (some raw)
  if cleaned = "" then (full, last)
  else
    let p := (splitWs cleaned).foldl stepWord ([], last)
    if 0 < p.1.length then (appendChunk full (String.intercalate " " p.1), p.2)
    else (full, p.2)

/-- The custom chunking loop over chunk indices `is`; an engine error at
any chunk escapes the loop (there is no per-chunk `try/catch` here). -/
def chunkLoop (io : EngineIO) : List Nat → String → List String →
    Except Unit String
  | [], full, _ => .ok full
  | i :: is, full, last =>
    match io.chunkText i with
    | .error e => .error e
    | .ok raw =>
      let p := processChunkText full last raw
      chunkLoop io is p.1 p.2

/-- The whole custom `transcriber` on an `audioData` buffer of length
`len`: the chunked path when `estimatedDuration = len/16000 > 25`, else the
single-window path; either result is replaced by `'[Empty transcription]'`
when empty. -/
def transcriberRun (len : Nat) (io : EngineIO) : Except Unit String :=
  if 25 * 16000 < len then
    match chunkLoop io (List.range (numChunks len)) "" [] with
    | .error e => .error e
    | .ok full => .ok (if full = "" then "[Empty transcription]" else full)
  else
    match io.singleText with
    | .error e => .error e
    | .ok raw =>
      let cleaned := cleanWhisperOutput (some raw)
      .ok (if cleaned = "" then "[Empty transcription]" else cleaned)

/-- Pure stitching of a list of already-decoded chunk texts (the loop of
the custom transcriber with every inference call succeeding). -/
def stitchChunks (raws : List String) : String :=
  (raws.foldl (fun p raw => processChunkText p.1 p.2 raw) ("", [])).1

/-! ## `processLongRecording`'s Web Audio manual chunking loop
(src/popup/popup.js:1270-1378; the identical code also appears in
src/unnamed/part_000:1053-1171)

`const CHUNK_SIZE = 30` (seconds), `samplesPerChunk = CHUNK_SIZE *
sampleRate` with the buffer's *native* sample rate, and `numChunks =
Math.ceil(totalSamples / samplesPerChunk)`. -/

def longRecNumChunks (sampleRate totalSamples : Nat) : Nat :=
  (totalSamples + 30 * sampleRate - 1) / (30 * sampleRate)

/-- `(startTime, endTime)` of chunk `i` — both are *sample* counts in the
source despite the variable names:
`startTime = i * samplesPerChunk`,
`endTime = Math.min((i + 1) * samplesPerChunk, totalSamples)`. -/
def longRecChunk (sampleRate totalSamples i : Nat) : Nat × Nat :=
  (i * (30 * sampleRate), min ((i + 1) * (30 * sampleRate)) totalSamples)

/-- `if (chunkLength < 0.5) continue;` — `chunkLength = endTime - startTime`
is a number of samples, so the comparison `chunkLength < 0.5` holds exactly
when the chunk has zero samples (`2 * chunkLength < 1` in exact
arithmetic). -/
def longRecSkip (chunkLength : Nat) : Bool := 2 * chunkLength < 1

/-- The per-chunk loop: each chunk's `transcriber` call sits in its own
`try/catch`, so an engine error only skips that chunk
(`// Continue with next chunk`); a successful result contributes
`cleanWhisperOutput(result.text)` when both the raw text
(`if (result && result.text)`) and the cleaned text are non-empty, joined
with `(fullTranscription ? ' ' : '')`. -/
def longRecLoop (engine : Nat → Except Unit String) (sampleRate totalSamples : Nat) :
    List Nat → String → String
  | [], full => full
  | i :: is, full =>
    let c := longRecChunk sampleRate totalSamples i
    if longRecSkip (c.2 - c.1) then
      longRecLoop engine sampleRate totalSamples is full
    else
      match engine i with
      | .error _ => longRecLoop engine sampleRate totalSamples is full
      | .ok raw =>
        if raw = "" then longRecLoop engine sampleRate totalSamples is full
        else
          let t := cleanWhisperOutput (some raw)
          if t = "" then longRecLoop engine sampleRate totalSamples is full
          else
            longRecLoop engine sampleRate totalSamples is
              (full ++ (if full = "" then "" else " ") ++ t)

/-- The transcript assembled by the Web Audio chunking path of
`processLongRecording`. -/
def processLongRun (sampleRate totalSamples : Nat)
    (engine : Nat → Except Unit String) : String :=
  longRecLoop engine sampleRate totalSamples
    (List.range (longRecNumChunks sampleRate totalSamples)) ""

/-! ## Audio normalisation -/

/-- Nearest-neighbour resampling (whisper-utils.js:88-99 and
src/unnamed/part_000 `processAudioBlob`, lines 234-247): when
`audioBuffer.sampleRate !== 16000`, `ratio = sampleRate / 16000`,
`newLength = Math.floor(length / ratio)` and
`out[i] = in[Math.floor(i * ratio)]`; samples as exact rationals. -/
def resample (sampleRate : Nat) (input : List ℚ) : List ℚ :=
  if sampleRate = 16000 then input
  else
    (List.range (input.length * 16000 / sampleRate)).map fun i =>
      input.getD (i * sampleRate / 16000) 0

/-- `audioBuffer.getChannelData(0)` — the mono conversion of
`processAudioBlob` (src/unnamed/part_000:230-232) and of the
whisper-utils.js manual fallback (lines 85-86): the first channel is taken,
other channels are ignored. -/
def firstChannelMono (channels : List (List ℚ)) : List ℚ :=
  channels.headD []

/-- The mono conversion of `processLongRecording`'s Web Audio path
(popup.js:1286-1299): when `numberOfChannels > 1` the first two channels
are averaged (`(leftChannel[i] + rightChannel[i]) / 2`), otherwise channel
0 is copied.  `ch0`/`ch1` give the per-index samples of
`getChannelData(0)`/`getChannelData(1)`. -/
def webAudioMono (numberOfChannels bufLen : Nat) (ch0 ch1 : Nat → ℚ) : List ℚ :=
  if 1 < numberOfChannels then
    (List.range bufLen).map fun i => (ch0 i + ch1 i) / 2
  else
    (List.range bufLen).map ch0

/-! ## `const` scoping in `processRecording` (popup.js:1062-1157)

`processRecording`'s body is one `try/catch`.  The `try` block declares
`const audioArrayBuffer`, `const estimatedDuration`, `const result`; the
`catch (error)` block's inner `try` evaluates
`chunk_length_s: Math.min(estimatedDuration, 20)` while building the
options object for the reduced-window `pipeline(...)` call.  `const`
bindings are block-scoped, so the scope chain visible at that expression
is: the inner `try` block, the `catch` block, the function scope, and the
module's top level — the `try` block of the outer attempt is *not* on it.
Name resolution over that chain is modelled explicitly. -/

inductive JsErr where
  | refError (name : String)
  | thrown
deriving DecidableEq

/-- Reading an identifier: walk the scope chain; an identifier on no scope
throws `ReferenceError` (reads of undeclared names do so even in sloppy
mode). -/
def lookupVar (scopes : List (List String)) (x : String) : Except JsErr Unit :=
  if scopes.any fun s => x ∈ s then .ok () else .error (.refError x)

/-- popup.js module top level: the `let`/`const`/`function` declarations
(lines 18-42, 598-641 and the top-level function statements).  There is no
top-level `estimatedDuration`. -/
def popupTopLevelScope : List String :=
  ["transcriber", "processor", "model", "recording", "mediaRecorder",
   "audioChunks", "selectedModel", "recordingTimer", "recordingStartTime",
   "loadingProgress", "isWhisperModel", "audioContext", "analyser",
   "dataArray", "canvas", "canvasCtx", "animationId", "visualizerInitialized",
   "recordBtn", "transcriptionEl", "copyBtn", "clearBtn", "modelSelect",
   "statusEl", "timerEl", "modelInfoEl", "progressBar", "progressCallback",
   "darkModeCheckbox", "saveSettingsBtn",
   "initializeModel", "loadWhisperModel", "loadStandardModel", "formatTime",
   "updateTimer", "initVisualizer", "drawWaveform", "toggleRecording",
   "stopRecording", "processRecording", "processLongRecording",
   "audioBufferToBlob", "bufferToWav", "writeString", "copyTranscription",
   "clearTranscription", "changeModel", "saveSettings", "loadSettings",
   "loadUserPreferences", "saveTranscriptionToHistory"]

/-- The scope chain at `Math.min(estimatedDuration, 20)` inside the catch
block's inner `try`: by then the inner `try` has bound `pipeline` (from
`const { pipeline } = await import(...)`), the catch clause binds `error`,
and the function scope binds the parameter `audioBlob`. -/
def fallbackScopeChain : List (List String) :=
  [["pipeline"], ["error"], ["audioBlob"], popupTopLevelScope]

/-- The declarations of the outer `try` block of `processRecording` —
where `estimatedDuration` actually lives (popup.js:1066-1088). -/
def processRecordingTryScope : List String :=
  ["audioArrayBuffer", "estimatedDuration", "result", "cleanedText"]

/-- The reduced-window fallback (the catch block's inner `try`,
popup.js:1114-1149): import the pipeline module, build the options object —
whose `chunk_length_s` reads `estimatedDuration` — construct the temporary
transcriber, run it, clean its text.  `engineTranscribe` is the opaque
`tempTranscriber(audioBlob)` call. -/
def reducedWindowFallback (engineTranscribe : Except JsErr String) :
    Except JsErr String := do
  let _ ← lookupVar fallbackScopeChain "estimatedDuration"
  let fallbackResult ← engineTranscribe
  if fallbackResult = "" then throw .thrown
  else
    let cleaned := cleanWhisperOutput (some fallbackResult)
    pure (if cleaned.trim = "" then "[No speech detected]" else cleaned)

/-- The whole catch block of `processRecording`: try the reduced-window
fallback; on any failure, `catch (fallbackError)` runs
`processLongRecording(audioBlob)` (the manual long-recording path, its
result abstracted as `manual`). -/
def processRecordingCatch (engineTranscribe : Except JsErr String)
    (manual : Except JsErr String) : Except JsErr String :=
  match reducedWindowFallback engineTranscribe with
  | .ok t => .ok t
  | .error _ => manual

/-! ## Shared helper lemmas -/

theorem setAdd_length_le (l : List String) (w : String) :
    (setAdd l w).length ≤ l.length + 1 := by
  unfold setAdd
  split <;> simp

theorem stepWord_state_length_le (uniq last : List String) (w : String)
    (h : last.length ≤ 20) : (stepWord (uniq, last) w).2.length ≤ 20 := by
  have hs := setAdd_length_le last w
  simp only [stepWord]
  split
  · dsimp only
    split
    · simp only [List.length_drop]
      omega
    · omega
  · simpa using h

theorem foldl_stepWord_state_length_le (ws : List String) :
    ∀ (uniq last : List String), last.length ≤ 20 →
    ((ws.foldl stepWord (uniq, last)).2).length ≤ 20 := by
  induction ws with
  | nil => intro uniq last h; simpa using h
  | cons w ws ih =>
    intro uniq last h
    rw [List.foldl_cons]
    have h' := stepWord_state_length_le uniq last w h
    have : stepWord (uniq, last) w =
        ((stepWord (uniq, last) w).1, (stepWord (uniq, last) w).2) := rfl
    rw [this]
    exact ih _ _ h'

theorem processChunkText_state_length_le (full : String) (last : List String)
    (raw : String) (h : last.length ≤ 20) :
    (processChunkText full last raw).2.length ≤ 20 := by
  rw [processChunkText]
  dsimp only
  split
  · simpa using h
  · split
    · simpa using foldl_stepWord_state_length_le _ [] last h
    · simpa using foldl_stepWord_state_length_le _ [] last h

theorem stitch_foldl_state_length_le (raws : List String) :
    ∀ (p : String × List String), p.2.length ≤ 20 →
    ((raws.foldl (fun q raw => processChunkText q.1 q.2 raw) p).2).length ≤ 20 := by
  induction raws with
  | nil => intro p h; simpa using h
  | cons raw raws ih =>
    intro p h
    rw [List.foldl_cons]
    exact ih _ (processChunkText_state_length_le p.1 p.2 raw h)

/-- Natural ceiling division by 352000 agrees with the exact rational
ceiling (the stride gap of the > 120 s tier). -/
theorem natCeilDiv_352000 (n : ℕ) :
    (⌈(n : ℚ) / 352000⌉ : ℤ) = ((n + 351999) / 352000 : ℕ) := by
  have h0 : (0 : ℚ) < 352000 := by norm_num
  rw [Int.ceil_eq_iff]
  refine ⟨?_, ?_⟩
  · rw [lt_div_iff₀ h0]
    have h2 : ((((n + 351999) / 352000 : ℕ) : ℤ) - 1) * 352000 < (n : ℤ) := by
      omega
    exact_mod_cast h2
  · rw [div_le_iff₀ h0]
    have h1 : (n : ℤ) ≤ (((n + 351999) / 352000 : ℕ) : ℤ) * 352000 := by
      omega
    exact_mod_cast h1

/-- The window count of the spec's formula
`ceil((totalSamples - windowSizeSamples) / (windowSizeSamples -
strideSamples)) + 1`, stated with exact rational ceiling (spec §4.2). -/
def specWindowCount (len windowSize stride : Nat) : ℤ :=
  ⌈((len : ℚ) - windowSize) / ((windowSize : ℚ) - stride)⌉ + 1

/-! ## Claims -/

/-- Claim C1 (code_bug): the source intends to cap a word at 3 tracked
occurrences (`// But allow up to 3 repetitions`), but `lastWords` is a JS
`Set`, so `[...lastWords].filter(w => w === word).length` is never more
than 1 and `repetitionCount < 3` always holds: nothing is ever suppressed.
On the spec's own §8.4 example the merged transcript contains the word
"forty" four times. -/
theorem repetitionFilter_never_suppresses :
    stitchChunks ["forty nine forty nine forty nine", "forty nine test"] =
      "forty nine forty nine forty nine forty nine test" ∧
    (splitWs (stitchChunks
      ["forty nine forty nine forty nine", "forty nine test"])).count "forty" = 4 := by
  constructor
  · decide
  · decide

/-- Claim C2, counterexample: `sanitize` is not idempotent — removing the
inner bracketed tag of `"[[A]A]"` manufactures a fresh tag `"[A]"`, which a
second pass removes. -/
theorem sanitize_not_idempotent :
    cleanWhisperOutput (some (cleanWhisperOutput (some "[[A]A]"))) ≠
      cleanWhisperOutput (some "[[A]A]") := by
  decide

/-- Claim C2 (amended): `sanitize` is total (it is a total Lean function on
`Option String`) and empty/null input yields the empty string, but
idempotency fails: one pass sends `"[[A]A]"` to `"[A]"` and a second pass
sends that to `""`. -/
theorem sanitize_total_empty :
    cleanWhisperOutput none = "" ∧ cleanWhisperOutput (some "") = "" ∧
    cleanWhisperOutput (some "[[A]A]") = "[A]" ∧
    cleanWhisperOutput (some "[A]") = "" := by
  refine ⟨rfl, rfl, by decide, by decide⟩

/-- Claim C3, counterexample: the custom chunking loop of the `transcriber`
in src/unnamed/part_000 has no per-chunk `try/catch` and the transcriber's
`catch` rethrows, so one failing window (here window 2 of 3, on a 50 s
buffer) aborts the whole call and loses windows 1 and 3's text. -/
theorem transcriber_chunk_failure_aborts :
    transcriberRun 800000
      ⟨fun i => if i = 0 then .ok "hello" else
                if i = 1 then .error () else .ok "world", .ok ""⟩ =
      .error () := by
  rfl

/-- Claim C3 (amended): in `processLongRecording`'s Web Audio chunking loop
each window's inference call is independently fault-tolerant — with
window 2 of 3 throwing, the final transcript still contains windows 1 and
3's text and no error propagates. -/
theorem processLongRecording_fault_tolerant (t0 t2 : String)
    (h0 : t0 ≠ "") (h2 : t2 ≠ "")
    (hc0 : cleanWhisperOutput (some t0) ≠ "")
    (hc2 : cleanWhisperOutput (some t2) ≠ "") :
    processLongRun 16000 1440000
      (fun i => if i = 0 then .ok t0 else if i = 1 then .error () else .ok t2) =
      cleanWhisperOutput (some t0) ++ " " ++ cleanWhisperOutput (some t2) := by
  have hn : longRecNumChunks 16000 1440000 = 3 := by decide
  rw [processLongRun, hn]
  have hr : List.range 3 = [0, 1, 2] := by decide
  rw [hr]
  simp only [longRecLoop, longRecChunk, longRecSkip]
  norm_num [h0, h2, hc0, hc2]

theorem processLongRecording_fault_tolerant_witness :
    processLongRun 16000 1440000
      (fun i => if i = 0 then .ok "hello" else
                if i = 1 then .error () else .ok "world") =
      cleanWhisperOutput (some "hello") ++ " " ++ cleanWhisperOutput (some "world") :=
  processLongRecording_fault_tolerant "hello" "world"
    (by decide) (by decide) (by decide) (by decide)

/-- Claim C4: on a buffer longer than 120 s (`len > 120 * 16000` samples),
the custom chunking uses 25 s windows with a 3 s stride, produces exactly
`ceil((totalSamples - windowSizeSamples) / (windowSizeSamples -
strideSamples)) + 1` windows, and the windows' start samples are strictly
increasing. -/
theorem longAudio_tier_window_count (len : Nat) (h : 1920000 < len) :
    adjustedChunkSize len = 25 * 16000 ∧
    adjustedStrideSize len = 3 * 16000 ∧
    ((chunkWindows len).length : ℤ) = specWindowCount len 400000 48000 ∧
    ((chunkWindows len).map Prod.fst).Pairwise (· < ·) := by
  have hcs : adjustedChunkSize len = 400000 := by
    simp [adjustedChunkSize, h]
  have hss : adjustedStrideSize len = 48000 := by
    simp [adjustedStrideSize, h]
  refine ⟨by simpa using hcs, by simpa using hss, ?_, ?_⟩
  · have hlen : (chunkWindows len).length = numChunks len := by
      simp [chunkWindows]
    have hnc : numChunks len = (len - 400000 + 351999) / 352000 + 1 := by
      simp [numChunks, hcs, hss]
    have hspec : specWindowCount len 400000 48000 =
        (((len - 400000 + 351999) / 352000 + 1 : ℕ) : ℤ) := by
      unfold specWindowCount
      have hnum : (len : ℚ) - ((400000 : ℕ) : ℚ) = ((len - 400000 : ℕ) : ℚ) := by
        have h4 : (400000 : ℕ) ≤ len := by omega
        push_cast [h4]
        ring
      have hden : ((400000 : ℕ) : ℚ) - ((48000 : ℕ) : ℚ) = 352000 := by
        norm_num
      rw [hnum, hden, natCeilDiv_352000]
      norm_cast
    rw [hspec, hlen, hnc]
  · have hmap : (chunkWindows len).map Prod.fst =
        (List.range (numChunks len)).map fun i => chunkStart len i := by
      simp [chunkWindows, List.map_map, Function.comp]
    rw [hmap]
    refine List.Pairwise.map _ ?_ (List.pairwise_lt_range _)
    intro a b hab
    have ha : chunkStart len a = a * 352000 := by simp [chunkStart, hcs, hss]
    have hb : chunkStart len b = b * 352000 := by simp [chunkStart, hcs, hss]
    rw [ha, hb]
    exact (Nat.mul_lt_mul_right (by norm_num)).mpr hab

theorem longAudio_tier_window_count_witness :
    adjustedChunkSize 2400000 = 25 * 16000 ∧
    adjustedStrideSize 2400000 = 3 * 16000 ∧
    ((chunkWindows 2400000).length : ℤ) = specWindowCount 2400000 400000 48000 ∧
    ((chunkWindows 2400000).map Prod.fst).Pairwise (· < ·) :=
  longAudio_tier_window_count 2400000 (by norm_num)

/-- Claim C5, counterexample: at 1 s of audio (duration ≤ 25 s) with an
engine output whose sanitized form is empty, the transcriber returns the
placeholder `'[Empty transcription]'`, not the (empty) sanitized output
unchanged. -/
theorem single_window_empty_placeholder :
    transcriberRun 16000 ⟨fun _ => .ok "", .ok ""⟩ =
      .ok "[Empty transcription]" ∧
    cleanWhisperOutput (some "") = "" := by
  exact ⟨rfl, rfl⟩

/-- Claim C5 (amended): for `estimatedDuration = len / 16000 ≤ 25` the
buffer is processed as one window — the chunking loop and its repetition
filter are never consulted (the per-chunk oracle is arbitrary) — and the
sanitized engine output passes through unchanged whenever it is non-empty;
an empty sanitized output is replaced by `'[Empty transcription]'`. -/
theorem single_window_passthrough (len : Nat) (io : EngineIO) (raw : String)
    (hlen : len ≤ 400000) (hio : io.singleText = .ok raw)
    (hc : cleanWhisperOutput (some raw) ≠ "") :
    transcriberRun len io = .ok (cleanWhisperOutput (some raw)) := by
  rw [transcriberRun, if_neg (by omega), hio]
  simp [hc]

theorem single_window_passthrough_witness :
    transcriberRun 16000 ⟨fun _ => .ok "", .ok "hello world"⟩ =
      .ok (cleanWhisperOutput (some "hello world")) :=
  single_window_passthrough 16000 ⟨fun _ => .ok "", .ok "hello world"⟩
    "hello world" (by norm_num) rfl (by decide)

/-- Claim C6 (code_bug): the skip check compares `chunkLength` — a number
of *samples* — against `0.5`, so it only ever skips zero-sample chunks.
At 16 kHz with 484800 total samples, chunk 2 spans samples 480000-484800:
4800 samples = 0.3 s, under the spec's 0.5 s minimum, yet it is processed
and contributes its text. -/
theorem short_chunk_not_skipped :
    longRecNumChunks 16000 484800 = 2 ∧
    longRecChunk 16000 484800 1 = (480000, 484800) ∧
    longRecSkip (484800 - 480000) = false ∧
    484800 - 480000 < 8000 ∧
    processLongRun 16000 484800
      (fun i => .ok (if i = 0 then "alpha" else "beta")) = "alpha beta" := by
  refine ⟨by decide, by decide, by decide, by decide, by decide⟩

/-- Claim C7, counterexample: the `processAudioBlob`/whisper-utils manual
normalizer takes `getChannelData(0)` only; on a two-channel capture with
`ch0 = [1]`, `ch1 = [0]` its output is `[1]`, not the channel average
`[1/2]`. -/
theorem firstChannelMono_not_average :
    firstChannelMono [[(1 : ℚ)], [0]] ≠ [((1 : ℚ) + 0) / 2] := by
  norm_num [firstChannelMono]

/-- Claim C7 (amended): `processLongRecording`'s Web Audio path averages
the first two channels into one mono channel (of the buffer's length) when
more than one channel is present, while the `processAudioBlob` and
whisper-utils normalizers take channel 0 only; every path outputs a single
channel. -/
theorem mono_conversion_amended (n bufLen : Nat) (ch0 ch1 : Nat → ℚ) :
    (webAudioMono n bufLen ch0 ch1).length = bufLen ∧
    (1 < n → ∀ i, i < bufLen →
      (webAudioMono n bufLen ch0 ch1).getD i 0 = (ch0 i + ch1 i) / 2) ∧
    (∀ (c0 : List ℚ) (rest : List (List ℚ)),
      firstChannelMono (c0 :: rest) = c0) := by
  refine ⟨?_, ?_, fun c0 rest => rfl⟩
  · unfold webAudioMono
    split <;> simp
  · intro hn i hi
    unfold webAudioMono
    rw [if_pos hn]
    rw [List.getD_eq_getElem?_getD, List.getElem?_map, List.getElem?_range hi]
    rfl

theorem mono_conversion_amended_witness :
    (webAudioMono 2 1 (fun _ => (1 : ℚ)) (fun _ => 0)).getD 0 0 =
      ((1 : ℚ) + 0) / 2 :=
  (mono_conversion_amended 2 1 (fun _ => (1 : ℚ)) (fun _ => 0)).2.1
    (by norm_num) 0 (by norm_num)

/-- Claim C8: when the native rate differs from 16000 Hz the normalizer
resamples by nearest-neighbour index selection — output sample `i` is input
sample `⌊i * rate / 16000⌋` (always in bounds), the output length is
`⌊len / (rate / 16000)⌋ = ⌊len * 16000 / rate⌋`, and a 48000 Hz input of
length `N` yields `⌊N / 3⌋` samples. -/
theorem resample_nearest_neighbour (rate : Nat) (input : List ℚ)
    (hr : rate ≠ 16000) (hpos : 0 < rate) :
    (resample rate input).length = input.length * 16000 / rate ∧
    (∀ i, i < input.length * 16000 / rate →
      (resample rate input).getD i 0 = input.getD (i * rate / 16000) 0 ∧
      i * rate / 16000 < input.length) ∧
    (rate = 48000 → (resample rate input).length = input.length / 3) := by
  have hlen : (resample rate input).length = input.length * 16000 / rate := by
    simp [resample, hr]
  refine ⟨hlen, ?_, ?_⟩
  · intro i hi
    constructor
    · rw [resample, if_neg hr, List.getD_eq_getElem?_getD,
        List.getElem?_map, List.getElem?_range hi]
      rfl
    · have h1 : (i + 1) * rate ≤ input.length * 16000 :=
        (Nat.le_div_iff_mul_le hpos).mp hi
      rw [Nat.div_lt_iff_lt_mul (by norm_num : 0 < 16000)]
      calc i * rate < (i + 1) * rate :=
            (Nat.mul_lt_mul_right hpos).mpr (Nat.lt_succ_self i)
        _ ≤ input.length * 16000 := h1
  · intro h48
    rw [hlen, h48]
    rw [show (48000 : ℕ) = 16000 * 3 by norm_num,
        show input.length * 16000 = 16000 * input.length by ring]
    exact Nat.mul_div_mul_left _ _ (by norm_num)

theorem resample_nearest_neighbour_witness :
    (resample 48000 ([1, 2, 3, 4, 5, 6, 7, 8, 9, 10] : List ℚ)).length =
      ([1, 2, 3, 4, 5, 6, 7, 8, 9, 10] : List ℚ).length * 16000 / 48000 :=
  (resample_nearest_neighbour 48000 _ (by norm_num) (by norm_num)).1

/-- Claim C9: the `lastWords` window is bounded throughout stitching —
one word-step from a state of at most 20 tracked words leaves at most 20,
the entry evicted on overflow is `[...lastWords][0]`, the oldest-inserted
one (JS `Set`s keep insertion order), and every full stitching run from
the empty initial state ends (and hence stays) within the bound. -/
theorem recentWords_bounded_fifo :
    (∀ (uniq last : List String) (w : String), last.length ≤ 20 →
      (stepWord (uniq, last) w).2.length ≤ 20 ∧
      (20 < (setAdd last w).length →
        (stepWord (uniq, last) w).2 = (setAdd last w).drop 1)) ∧
    (∀ raws : List String,
      ((raws.foldl (fun p raw => processChunkText p.1 p.2 raw) ("", [])).2).length
        ≤ 20) := by
  constructor
  · intro uniq last w h
    refine ⟨stepWord_state_length_le uniq last w h, ?_⟩
    intro hover
    have hmem : ¬ w ∈ last := by
      intro hw
      have he : setAdd last w = last := by simp [setAdd, hw]
      rw [he] at hover
      omega
    have hcount : countInSet last w < 3 := by
      have hz : countInSet last w = 0 := by
        simp only [countInSet, List.length_eq_zero, List.filter_eq_nil_iff,
          decide_eq_true_eq]
        intro a ha haw
        exact hmem (haw ▸ ha)
      omega
    simp [stepWord, hcount, hover]
  · intro raws
    exact stitch_foldl_state_length_le raws ("", []) (by simp)

theorem recentWords_bounded_fifo_witness :
    (stepWord ([], ["w01", "w02", "w03", "w04", "w05", "w06", "w07", "w08",
      "w09", "w10", "w11", "w12", "w13", "w14", "w15", "w16", "w17", "w18",
      "w19", "w20"], ) "x").2.length ≤ 20 ∧
    (20 < (setAdd ["w01", "w02", "w03", "w04", "w05", "w06", "w07", "w08",
      "w09", "w10", "w11", "w12", "w13", "w14", "w15", "w16", "w17", "w18",
      "w19", "w20"] "x").length →
      (stepWord ([], ["w01", "w02", "w03", "w04", "w05", "w06", "w07", "w08",
        "w09", "w10", "w11", "w12", "w13", "w14", "w15", "w16", "w17", "w18",
        "w19", "w20"]) "x").2 =
      (setAdd ["w01", "w02", "w03", "w04", "w05", "w06", "w07", "w08",
        "w09", "w10", "w11", "w12", "w13", "w14", "w15", "w16", "w17", "w18",
        "w19", "w20"] "x").drop 1) :=
  recentWords_bounded_fifo.1 []
    ["w01", "w02", "w03", "w04", "w05", "w06", "w07", "w08", "w09", "w10",
     "w11", "w12", "w13", "w14", "w15", "w16", "w17", "w18", "w19", "w20"]
    "x" (by decide)

/-- Claim C10: whenever the direct attempt throws, the reduced-window
fallback in `processRecording`'s catch block reads `estimatedDuration`,
which is `const`-declared inside the try block and on no scope of the
catch block's chain, so the fallback always fails with a `ReferenceError`
before any transcription, and control proceeds to
`processLongRecording`. -/
theorem fallback_always_refErrors (engineTranscribe manual : Except JsErr String) :
    reducedWindowFallback engineTranscribe =
      .error (.refError "estimatedDuration") ∧
    processRecordingCatch engineTranscribe manual = manual ∧
    "estimatedDuration" ∈ processRecordingTryScope ∧
    (fallbackScopeChain.any fun s => "estimatedDuration" ∈ s) = false := by
  exact ⟨rfl, rfl, by decide, by decide⟩

end WhisperTranscribe
